import Mathlib

/-!
Verification of the mirror-symmetry detector in `symmetry_freecad.py`.

The development shallowly embeds the core algorithm: floating-point scalars
are idealized as real numbers, FreeCAD vectors as `Vec3`, and the geometry
kernel's faces as records carrying exactly the data the core queries
(area, edges with parametrized sampling, center of mass, vertices,
bounding-box diagonal, and a fallible point-distance oracle).
-/

namespace SymCad

/-- A 3D vector, modelling `FreeCAD.Vector` (floating point idealized as ℝ). -/
@[ext]
structure Vec3 where
  x : ℝ
  y : ℝ
  z : ℝ

/-- Vector addition (`Vector.__add__`). -/
def vadd (a b : Vec3) : Vec3 := ⟨a.x + b.x, a.y + b.y, a.z + b.z⟩

/-- Vector subtraction (`Vector.sub`). -/
def vsub (a b : Vec3) : Vec3 := ⟨a.x - b.x, a.y - b.y, a.z - b.z⟩

/-- Scalar multiple (`Vector.multiply`). -/
def vscale (c : ℝ) (a : Vec3) : Vec3 := ⟨c * a.x, c * a.y, c * a.z⟩

/-- Dot product (`Vector.dot`). -/
def vdot (a b : Vec3) : ℝ := a.x * b.x + a.y * b.y + a.z * b.z

/-- Euclidean length (`Vector.Length`). -/
noncomputable def vlen (a : Vec3) : ℝ := Real.sqrt (a.x ^ 2 + a.y ^ 2 + a.z ^ 2)

/-- The zero vector, `App.Vector(0, 0, 0)`. -/
def vzero : Vec3 := ⟨0, 0, 0⟩

/-- Normalization `Vector.normalize()`, total version: scales by the inverse
length.  The matcher only calls it after its degeneracy guard has ensured a
length of at least the (positive) tolerance, so the null-vector case is
unreachable there. -/
noncomputable def vnormalize (a : Vec3) : Vec3 := vscale (vlen a)⁻¹ a

/-- An affine 3×4 matrix: the part of a homogeneous `FreeCAD.Matrix` that the
code sets (rows 1–3; `unity()` leaves the fourth row at `0 0 0 1`). -/
structure Mat where
  A11 : ℝ
  A12 : ℝ
  A13 : ℝ
  A14 : ℝ
  A21 : ℝ
  A22 : ℝ
  A23 : ℝ
  A24 : ℝ
  A31 : ℝ
  A32 : ℝ
  A33 : ℝ
  A34 : ℝ

/-- Matrix application to a point: `Matrix * Vector` on a homogeneous matrix
whose fourth row is `0 0 0 1`, so the `A14/A24/A34` column translates. -/
def applyMat (M : Mat) (p : Vec3) : Vec3 :=
  ⟨M.A11 * p.x + M.A12 * p.y + M.A13 * p.z + M.A14,
   M.A21 * p.x + M.A22 * p.y + M.A23 * p.z + M.A24,
   M.A31 * p.x + M.A32 * p.y + M.A33 * p.z + M.A34⟩

/-- The mirror transformation built inside `find_symmetric_face_pairs`
(lines 52–65): entry for entry the assignments to `A11 .. A34` after
`unity()`, from the (normalized) `normal` and the `midpoint`. -/
def mkMirrorMatrix (normal midpoint : Vec3) : Mat :=
  { A11 := 1 - 2 * normal.x * normal.x
    A12 := -2 * normal.x * normal.y
    A13 := -2 * normal.x * normal.z
    A14 := 2 * normal.x * vdot midpoint normal
    A21 := -2 * normal.y * normal.x
    A22 := 1 - 2 * normal.y * normal.y
    A23 := -2 * normal.y * normal.z
    A24 := 2 * normal.y * vdot midpoint normal
    A31 := -2 * normal.z * normal.x
    A32 := -2 * normal.z * normal.y
    A33 := 1 - 2 * normal.z * normal.z
    A34 := 2 * normal.z * vdot midpoint normal }

end SymCad

namespace SymCad

/-- An edge of a face boundary, modelling the FreeCAD `Edge` data the core
queries: its length, its parameter range, and parametrized point evaluation.
`valueAt` is fallible (`Option`), modelling the `try/except` around
`edge.valueAt` in `check_faces_coincident`. -/
structure Edge where
  Length : ℝ
  FirstParameter : ℝ
  LastParameter : ℝ
  valueAt : ℝ → Option Vec3

/-- A face, modelling exactly the FreeCAD `Face` data the core queries:
area, boundary edges, center of mass, vertices, bounding-box diagonal
(`BoundBox.DiagonalLength`), and the minimum distance from the face to a
point (`face.distToShape(Part.Vertex(point))[0]`), fallible to model the
`try/except` around the distance query. -/
structure Face where
  Area : ℝ
  Edges : List Edge
  CenterOfMass : Vec3
  Vertexes : List Vec3
  BBDiag : ℝ
  distTo : Vec3 → Option ℝ

/-- A shape; the core only queries its face list `shape.Faces`. -/
structure Shape where
  Faces : List Face

open Classical

/-- Perimeter of a face: `sum(edge.Length for edge in face.Edges)`. -/
def perimeter (f : Face) : ℝ := (f.Edges.map Edge.Length).sum

/-- Modelled from the spec: the geometry kernel's
`face.transformGeometry(matrix)` (an external collaborator, §6 of the spec:
"rigid/affine geometric transform application to a face").  The reflection is
an affine isometry, so vertices and curve sample points map through the
matrix, area and edge lengths and parameter ranges are preserved, and the
distance from the transformed face to a point is the distance from the
original face to the point pulled back through the (involutive) reflection.
The axis-aligned bounding-box diagonal is carried over; this is exact
whenever the reflection maps the box to an axis-aligned box (as for the
axis-aligned mirror normals used in all concrete shapes below). -/
def transformGeometry (M : Mat) (f : Face) : Face :=
  { Area := f.Area
    Edges := f.Edges.map fun e =>
      { e with valueAt := fun t => (e.valueAt t).map (applyMat M) }
    CenterOfMass := applyMat M f.CenterOfMass
    Vertexes := f.Vertexes.map (applyMat M)
    BBDiag := f.BBDiag
    distTo := fun p => f.distTo (applyMat M p) }

/-- The sample-point set collected by `check_faces_coincident` (lines 85–100):
every vertex of `face1`, plus for each edge the points at parameter fractions
`i/5`, `i = 1..4`, of the parameter range; a sample is silently skipped when
curve evaluation fails. -/
noncomputable def samplePoints (face1 : Face) : List Vec3 :=
  face1.Vertexes ++
    face1.Edges.flatMap fun e =>
      ((List.range 4).map fun k => k + 1).filterMap fun i =>
        e.valueAt (e.FirstParameter + (((i : ℕ) : ℝ) / 5) * (e.LastParameter - e.FirstParameter))

/-- The matched-sample count of `check_faces_coincident` (lines 106–113):
the number of sample points whose distance query on `face2` succeeds and
returns a distance below the tolerance; a failed query contributes nothing. -/
noncomputable def matchCount (face2 : Face) (pts : List Vec3) (tolerance : ℝ) : ℕ :=
  pts.countP fun point =>
    match face2.distTo point with
    | some distance => decide (distance < tolerance)
    | none => false

/-- `check_faces_coincident(face1, face2, tolerance)` (lines 76–116):
reject if the bounding-box diagonals differ by more than the tolerance;
collect the sample points of `face1`; return false on an empty sample set;
otherwise accept iff more than 70% of the samples are within tolerance of
`face2`. -/
noncomputable def check_faces_coincident (face1 face2 : Face) (tolerance : ℝ) : Prop :=
  if |face1.BBDiag - face2.BBDiag| > tolerance then False
  else
    let points_to_check := samplePoints face1
    if points_to_check.isEmpty then False
    else (matchCount face2 points_to_check tolerance : ℝ) > 0.7 * points_to_check.length

/-- A face pair as stored by the matcher: the Python tuple
`(i, j, midpoint, normal)`. -/
abbrev FacePair : Type := ℕ × ℕ × Vec3 × Vec3

/-- First index of a face pair (`pair[0]`). -/
def pairFst (p : FacePair) : ℕ := p.1

/-- Second index of a face pair (`pair[1]`). -/
def pairSnd (p : FacePair) : ℕ := p.2.1

/-- Midpoint of a face pair (`pair[2]`). -/
def pairMid (p : FacePair) : Vec3 := p.2.2.1

/-- Normal of a face pair (`pair[3]`). -/
def pairNormal (p : FacePair) : Vec3 := p.2.2.2

/-- The midpoint between the two face centers constructed by
`find_symmetric_face_pairs` (lines 41–43): the componentwise average. -/
noncomputable def midOf (face_a face_b : Face) : Vec3 :=
  ⟨(face_a.CenterOfMass.x + face_b.CenterOfMass.x) / 2,
   (face_a.CenterOfMass.y + face_b.CenterOfMass.y) / 2,
   (face_a.CenterOfMass.z + face_b.CenterOfMass.z) / 2⟩

/-- The body of the double loop of `find_symmetric_face_pairs`
(lines 22–72) for one candidate index pair `(i, j)`: area filter, perimeter
filter, midpoint and normal construction, degeneracy guard
(`normal.Length < tolerance`), mirror-matrix construction, transform of
`face_a`, and the coincidence test against `face_b`; returns the emitted
`(i, j, midpoint, normal)` record, if any. -/
noncomputable def tryPair (tolerance : ℝ) (i j : ℕ) (face_a face_b : Face) :
    Option FacePair :=
  if |face_a.Area - face_b.Area| > tolerance then none
  else if |perimeter face_a - perimeter face_b| > tolerance then none
  else
    let center_a := face_a.CenterOfMass
    let center_b := face_b.CenterOfMass
    let midpoint := midOf face_a face_b
    let normal0 := vsub center_b center_a
    if vlen normal0 < tolerance then none
    else
      let normal := vnormalize normal0
      let mirror_transform := mkMirrorMatrix normal midpoint
      let mirrored_face := transformGeometry mirror_transform face_a
      if check_faces_coincident mirrored_face face_b tolerance then
        some (i, j, midpoint, normal)
      else none

/-- The index pairs visited by the double loop
`for i in range(len(faces)): for j in range(i+1, len(faces))`, in order. -/
def pairIndices (n : ℕ) : List (ℕ × ℕ) :=
  (List.range n).flatMap fun i =>
    ((List.range n).filter fun j => i < j).map fun j => (i, j)

/-- `find_symmetric_face_pairs(shape, tolerance)` (lines 14–74): the all-pairs
scan over the shape's faces, collecting the emitted face pairs in loop order. -/
noncomputable def find_symmetric_face_pairs (shape : Shape) (tolerance : ℝ) :
    List FacePair :=
  (pairIndices shape.Faces.length).filterMap fun ij =>
    match shape.Faces[ij.1]?, shape.Faces[ij.2]? with
    | some face_a, some face_b => tryPair tolerance ij.1 ij.2 face_a face_b
    | _, _ => none

/-- Modelled from the spec: the kernel's `Vector.normalize()` is undefined on
the null vector (the Python binding raises there); on any other vector it
scales by the inverse length, producing the unit vector. -/
noncomputable def normalizeOpt (v : Vec3) : Option Vec3 :=
  if vlen v = 0 then none else some (vscale (vlen v)⁻¹ v)

/-- Sum of a list of vectors, modelling the `Vector(0,0,0)` accumulator with
`+=` over the list. -/
def sumVec (l : List Vec3) : Vec3 := l.foldl vadd vzero

/-- Normal of the first pair of a group: `group[0][3]`.  Groups are non-empty
by construction; the default is never consulted. -/
def firstNormal (group : List FacePair) : Vec3 := pairNormal (group.headD (0, 0, vzero, vzero))

/-- One step of the greedy grouping of `find_significant_mirror_plane`
(lines 130–143): append the pair to the first existing group whose first
member's normal satisfies `abs(normal.dot(group_normal)) > 0.98`, else open a
new group at the end. -/
noncomputable def insertIntoGroups (pair : FacePair) : List (List FacePair) → List (List FacePair)
  | [] => [[pair]]
  | group :: rest =>
      if |vdot (pairNormal pair) (firstNormal group)| > 0.98 then
        (group ++ [pair]) :: rest
      else group :: insertIntoGroups pair rest

/-- The grouping phase of `find_significant_mirror_plane` (lines 127–143):
fold the greedy insertion over the incoming pairs. -/
noncomputable def groupPairs (face_pairs : List FacePair) : List (List FacePair) :=
  face_pairs.foldl (fun plane_groups pair => insertIntoGroups pair plane_groups) []

/-- One step of the greedy grouping of `find_all_mirror_planes`
(lines 286–299); the loop body is textually identical to the one in
`find_significant_mirror_plane`. -/
noncomputable def insertIntoGroupsAll (pair : FacePair) :
    List (List FacePair) → List (List FacePair)
  | [] => [[pair]]
  | group :: rest =>
      if |vdot (pairNormal pair) (firstNormal group)| > 0.98 then
        (group ++ [pair]) :: rest
      else group :: insertIntoGroupsAll pair rest

/-- The grouping phase of `find_all_mirror_planes` (lines 283–299). -/
noncomputable def groupPairsAll (face_pairs : List FacePair) : List (List FacePair) :=
  face_pairs.foldl (fun plane_groups pair => insertIntoGroupsAll pair plane_groups) []

/-- `max(plane_groups, key=len)`: the first group of maximal length. -/
def maxByLen (groups : List (List FacePair)) : List FacePair :=
  groups.foldl (fun best g => if best.length < g.length then g else best) (groups.headD [])

/-- The `unique_faces` set of a group: both indices of every member pair. -/
def uniqueFaces (group : List FacePair) : Finset ℕ :=
  group.foldr (fun p s => insert (pairFst p) (insert (pairSnd p) s)) ∅

/-- The largest plane group selected by `find_significant_mirror_plane`
(line 146). -/
noncomputable def sigLargestGroup (face_pairs : List FacePair) : List FacePair :=
  maxByLen (groupPairs face_pairs)

/-- The coverage computed by `find_significant_mirror_plane` (line 165):
unique faces of the largest group over the total face count. -/
noncomputable def sigCoverage (face_pairs : List FacePair) (total_faces : ℕ) : ℝ :=
  ((uniqueFaces (sigLargestGroup face_pairs)).card : ℝ) / (total_faces : ℝ)

/-- The summed (pre-normalization) `avg_normal` accumulator of
`find_significant_mirror_plane` (lines 149–153). -/
noncomputable def sigSumNormal (face_pairs : List FacePair) : Vec3 :=
  sumVec ((sigLargestGroup face_pairs).map pairNormal)

/-- The averaged `avg_point` of `find_significant_mirror_plane`
(lines 150–157): the sum of member midpoints scaled by one over the group
size. -/
noncomputable def sigAvgPoint (face_pairs : List FacePair) : Vec3 :=
  vscale (1 / ((sigLargestGroup face_pairs).length : ℝ))
    (sumVec ((sigLargestGroup face_pairs).map pairMid))

/-- `find_significant_mirror_plane(face_pairs, total_faces)` (lines 122–172).
The outer `Option` models the exception escaping when the summed normal of
the largest group is the null vector: `none` is a raised
"Cannot normalize null vector", and no plane/status is returned. -/
noncomputable def find_significant_mirror_plane (face_pairs : List FacePair)
    (total_faces : ℕ) : Option (Option (Vec3 × Vec3) × String) :=
  if face_pairs.isEmpty then some (none, "No symmetrical faces found")
  else
    match normalizeOpt (sigSumNormal face_pairs) with
    | none => none
    | some avg_normal =>
      let avg_point := sigAvgPoint face_pairs
      let coverage := sigCoverage face_pairs total_faces
      if coverage < 0.2 then some (none, "No significant symmetry detected")
      else if coverage < 0.6 then
        some (some (avg_point, avg_normal), "Partial symmetry detected")
      else some (some (avg_point, avg_normal), "Full symmetry detected")

/-- A record of the `mirror_planes` list of `find_all_mirror_planes`: the
dictionary with keys `plane`, `coverage`, `pairs`, `face_count`
(lines 328–333). -/
structure PlaneInfo where
  plane : Vec3 × Vec3
  coverage : ℝ
  pairs : List FacePair
  face_count : ℕ

/-- The record stored by `find_all_mirror_planes` for one qualifying group,
given the already-normalized average normal. -/
noncomputable def buildPlaneInfo (total_faces : ℕ) (group : List FacePair)
    (avg_normal : Vec3) : PlaneInfo :=
  { plane := (vscale (1 / (group.length : ℝ)) (sumVec (group.map pairMid)), avg_normal)
    coverage := ((uniqueFaces group).card : ℝ) / (total_faces : ℝ)
    pairs := group
    face_count := (uniqueFaces group).card }

/-- The per-group loop of `find_all_mirror_planes` (lines 303–333): skip
groups with fewer than two pairs, otherwise normalize the summed normal
(`none` models the exception on a null sum, aborting the whole call) and
store the plane record. -/
noncomputable def buildPlanes (total_faces : ℕ) :
    List (List FacePair) → Option (List PlaneInfo)
  | [] => some []
  | group :: rest =>
      if group.length < 2 then buildPlanes total_faces rest
      else
        match normalizeOpt (sumVec (group.map pairNormal)),
            buildPlanes total_faces rest with
        | some avg_normal, some infos =>
            some (buildPlaneInfo total_faces group avg_normal :: infos)
        | _, _ => none

/-- One insertion step of a stable descending sort by coverage: the new
record goes in front of the first record of strictly smaller coverage. -/
noncomputable def insertByCoverage (info : PlaneInfo) : List PlaneInfo → List PlaneInfo
  | [] => [info]
  | x :: xs =>
      if x.coverage < info.coverage then info :: x :: xs
      else x :: insertByCoverage info xs

/-- `mirror_planes.sort(key=lambda x: x['coverage'], reverse=True)`
(line 336): a stable sort by coverage, highest first, modelled by insertion
sort processing the records left to right; each record is inserted after
every already-placed record of greater or equal coverage, so records of
equal coverage keep their original relative order, as with Python's stable
`list.sort`. -/
noncomputable def sortByCoverage (l : List PlaneInfo) : List PlaneInfo :=
  l.foldl (fun acc info => insertByCoverage info acc) []

/-- `find_all_mirror_planes(face_pairs, total_faces)` (lines 278–341).  The
outer `Option` models the exception escaping when some qualifying group's
summed normal is the null vector. -/
noncomputable def find_all_mirror_planes (face_pairs : List FacePair)
    (total_faces : ℕ) : Option (List PlaneInfo × String) :=
  if face_pairs.isEmpty then some ([], "No symmetrical faces found")
  else
    match buildPlanes total_faces (groupPairsAll face_pairs) with
    | none => none
    | some mirror_planes =>
      let sorted := sortByCoverage mirror_planes
      if sorted.isEmpty then some ([], "No significant symmetry detected")
      else some (sorted, "Multiple symmetry planes detected")

/-! Concrete faces, shapes and pair lists used as evaluation inputs for
witnesses and counterexamples. -/

/-- A concrete face at the origin whose distance oracle always fails
(modelling a face on which every `distToShape` query raises). -/
def faceA : Face :=
  { Area := 2
    Edges := []
    CenterOfMass := ⟨0, 0, 0⟩
    Vertexes := [⟨0, 0, 1⟩]
    BBDiag := 5
    distTo := fun _ => none }

/-- A concrete face at distance one from `faceA`, with the same area,
perimeter and bounding-box diagonal, whose distance oracle always reports
distance zero. -/
def faceB : Face :=
  { Area := 2
    Edges := []
    CenterOfMass := ⟨1, 0, 0⟩
    Vertexes := [⟨9, 9, 9⟩]
    BBDiag := 5
    distTo := fun _ => some 0 }

/-- The two-face shape `[faceA, faceB]`. -/
def shapeA : Shape := ⟨[faceA, faceB]⟩

/-- The same shape with the face enumeration reversed. -/
def shapeRev : Shape := ⟨[faceB, faceA]⟩

/-- The face pair that `find_symmetric_face_pairs` emits on `shapeA` at
tolerance 1. -/
noncomputable def pairP1 : FacePair := (0, 1, ⟨1 / 2, 0, 0⟩, ⟨1, 0, 0⟩)

/-- A face pair whose normal is antiparallel to `pairP1`'s: the absolute
dot product against `pairP1`'s normal is 1 > 0.98, so the greedy grouping
puts the two pairs into one group, whose summed normal is the null vector. -/
noncomputable def pairPneg : FacePair := (2, 3, ⟨1 / 2, 0, 0⟩, ⟨-1, 0, 0⟩)

/-- A concrete face with no vertices and no edges (empty sample set) and
area 0. -/
def faceD1 : Face :=
  { Area := 0
    Edges := []
    CenterOfMass := ⟨0, 0, 0⟩
    Vertexes := []
    BBDiag := 0
    distTo := fun _ => none }

/-- A concrete face with no vertices and no edges and area 7. -/
def faceD2 : Face :=
  { Area := 7
    Edges := []
    CenterOfMass := ⟨1, 0, 0⟩
    Vertexes := []
    BBDiag := 0
    distTo := fun _ => none }

/-- A concrete face with one vertex and bounding-box diagonal 0. -/
def faceE1 : Face :=
  { Area := 0
    Edges := []
    CenterOfMass := ⟨0, 0, 0⟩
    Vertexes := [⟨0, 0, 0⟩]
    BBDiag := 0
    distTo := fun _ => some 0 }

/-- A concrete face with bounding-box diagonal 10 whose distance oracle
always reports distance zero. -/
def faceE2 : Face :=
  { Area := 0
    Edges := []
    CenterOfMass := ⟨1, 0, 0⟩
    Vertexes := [⟨0, 0, 0⟩]
    BBDiag := 10
    distTo := fun _ => some 0 }

/-- C2: the affine matrix constructed in `find_symmetric_face_pairs` maps any
point `p` to the Householder reflection `p - 2*n*(dot(n, p - midpoint))`,
for every unit normal `n` and plane point `midpoint`. -/
theorem mkMirrorMatrix_is_householder (n midpoint p : Vec3)
    (hn : n.x ^ 2 + n.y ^ 2 + n.z ^ 2 = 1) :
    applyMat (mkMirrorMatrix n midpoint) p =
      vsub p (vscale (2 * vdot n (vsub p midpoint)) n) := by
  ext <;> simp only [applyMat, mkMirrorMatrix, vsub, vscale, vdot] <;> ring

/-- Closed witness for `mkMirrorMatrix_is_householder` at a concrete unit
normal, plane point and point. -/
theorem mkMirrorMatrix_is_householder_witness :
    ((3 / 5 : ℝ) ^ 2 + (4 / 5 : ℝ) ^ 2 + (0 : ℝ) ^ 2 = 1) ∧
      applyMat (mkMirrorMatrix ⟨3 / 5, 4 / 5, 0⟩ ⟨1, 2, 3⟩) ⟨7, 1, 2⟩ =
        vsub ⟨7, 1, 2⟩
          (vscale (2 * vdot ⟨3 / 5, 4 / 5, 0⟩ (vsub ⟨7, 1, 2⟩ ⟨1, 2, 3⟩)) ⟨3 / 5, 4 / 5, 0⟩) :=
  ⟨by norm_num,
   mkMirrorMatrix_is_householder ⟨3 / 5, 4 / 5, 0⟩ ⟨1, 2, 3⟩ ⟨7, 1, 2⟩ (by norm_num)⟩

/-- C1: the mirror transform built by `find_symmetric_face_pairs` is an
involution: for every unit normal and plane point, applying the constructed
reflection matrix twice to any point returns the point. -/
theorem mkMirrorMatrix_involutive (n midpoint p : Vec3)
    (hn : n.x ^ 2 + n.y ^ 2 + n.z ^ 2 = 1) :
    applyMat (mkMirrorMatrix n midpoint) (applyMat (mkMirrorMatrix n midpoint) p) = p := by
  ext
  · simp only [applyMat, mkMirrorMatrix, vdot]
    linear_combination (4 * n.x *
      (n.x * (p.x - midpoint.x) + n.y * (p.y - midpoint.y) + n.z * (p.z - midpoint.z))) * hn
  · simp only [applyMat, mkMirrorMatrix, vdot]
    linear_combination (4 * n.y *
      (n.x * (p.x - midpoint.x) + n.y * (p.y - midpoint.y) + n.z * (p.z - midpoint.z))) * hn
  · simp only [applyMat, mkMirrorMatrix, vdot]
    linear_combination (4 * n.z *
      (n.x * (p.x - midpoint.x) + n.y * (p.y - midpoint.y) + n.z * (p.z - midpoint.z))) * hn

/-- Closed witness for `mkMirrorMatrix_involutive` at a concrete unit normal,
plane point and point. -/
theorem mkMirrorMatrix_involutive_witness :
    ((3 / 5 : ℝ) ^ 2 + (4 / 5 : ℝ) ^ 2 + (0 : ℝ) ^ 2 = 1) ∧
      applyMat (mkMirrorMatrix ⟨3 / 5, 4 / 5, 0⟩ ⟨1, 2, 3⟩)
          (applyMat (mkMirrorMatrix ⟨3 / 5, 4 / 5, 0⟩ ⟨1, 2, 3⟩) ⟨2, -1, 5⟩) = ⟨2, -1, 5⟩ :=
  ⟨by norm_num,
   mkMirrorMatrix_involutive ⟨3 / 5, 4 / 5, 0⟩ ⟨1, 2, 3⟩ ⟨2, -1, 5⟩ (by norm_num)⟩

/-! Length lemmas. -/

lemma vlen_nonneg (v : Vec3) : 0 ≤ vlen v := Real.sqrt_nonneg _

lemma vlen_vscale (c : ℝ) (v : Vec3) : vlen (vscale c v) = |c| * vlen v := by
  simp only [vlen, vscale]
  rw [show (c * v.x) ^ 2 + (c * v.y) ^ 2 + (c * v.z) ^ 2
      = c ^ 2 * (v.x ^ 2 + v.y ^ 2 + v.z ^ 2) by ring,
    Real.sqrt_mul (sq_nonneg c), Real.sqrt_sq_eq_abs]

lemma vlen_vnormalize {v : Vec3} (h : vlen v ≠ 0) : vlen (vnormalize v) = 1 := by
  rw [vnormalize, vlen_vscale, abs_inv, abs_of_nonneg (vlen_nonneg v), inv_mul_cancel₀ h]

lemma normalizeOpt_unit {v u : Vec3} (h : normalizeOpt v = some u) : vlen u = 1 := by
  by_cases hv : vlen v = 0
  · simp [normalizeOpt, hv] at h
  · rw [normalizeOpt, if_neg hv] at h
    injection h with h
    subst h
    exact vlen_vnormalize hv

/-! The two textually identical grouping phases. -/

lemma insertIntoGroups_eq (pair : FacePair) (groups : List (List FacePair)) :
    insertIntoGroups pair groups = insertIntoGroupsAll pair groups := by
  induction groups with
  | nil => rfl
  | cons group rest ih => simp only [insertIntoGroups, insertIntoGroupsAll, ih]

lemma foldl_insertIntoGroups_eq (face_pairs : List FacePair) :
    ∀ acc, face_pairs.foldl (fun gs p => insertIntoGroups p gs) acc
      = face_pairs.foldl (fun gs p => insertIntoGroupsAll p gs) acc := by
  induction face_pairs with
  | nil => intro acc; rfl
  | cons p rest ih =>
      intro acc
      simp only [List.foldl_cons, insertIntoGroups_eq, ih]

/-- C10: the greedy grouping phase of `find_significant_mirror_plane` and the
greedy grouping phase of `find_all_mirror_planes` produce identical
partitions into plane groups (same groups, same order, same membership), on
every input list of face pairs. -/
theorem grouping_phases_identical (face_pairs : List FacePair) :
    groupPairs face_pairs = groupPairsAll face_pairs :=
  foldl_insertIntoGroups_eq face_pairs []

/-! Inversion of `find_significant_mirror_plane`. -/

lemma find_significant_inv {face_pairs : List FacePair} {total_faces : ℕ}
    {res : Option (Vec3 × Vec3) × String}
    (hres : find_significant_mirror_plane face_pairs total_faces = some res)
    (hne : face_pairs ≠ []) :
    ∃ nrm, normalizeOpt (sigSumNormal face_pairs) = some nrm ∧
      ((sigCoverage face_pairs total_faces < 0.2 ∧
          res = (none, "No significant symmetry detected")) ∨
       (0.2 ≤ sigCoverage face_pairs total_faces ∧
          sigCoverage face_pairs total_faces < 0.6 ∧
          res = (some (sigAvgPoint face_pairs, nrm), "Partial symmetry detected")) ∨
       (0.6 ≤ sigCoverage face_pairs total_faces ∧
          res = (some (sigAvgPoint face_pairs, nrm), "Full symmetry detected"))) := by
  have he : face_pairs.isEmpty = false := by
    cases face_pairs
    · exact absurd rfl hne
    · rfl
  cases hN : normalizeOpt (sigSumNormal face_pairs) with
  | none => simp [find_significant_mirror_plane, he, hN] at hres
  | some nrm =>
      refine ⟨nrm, rfl, ?_⟩
      simp only [find_significant_mirror_plane, he, hN, Bool.false_eq_true, if_false] at hres
      split at hres
      · left
        exact ⟨by assumption, (Option.some_inj.1 hres).symm⟩
      · split at hres
        · right; left
          exact ⟨le_of_not_lt (by assumption), by assumption, (Option.some_inj.1 hres).symm⟩
        · right; right
          exact ⟨le_of_not_lt (by assumption), (Option.some_inj.1 hres).symm⟩

/-! Inversion of `find_all_mirror_planes`. -/

lemma mem_of_mem_insertByCoverage {a info : PlaneInfo} :
    ∀ {l : List PlaneInfo}, a ∈ insertByCoverage info l → a = info ∨ a ∈ l := by
  intro l
  induction l with
  | nil => intro h; simpa [insertByCoverage] using h
  | cons x xs ih =>
      intro h
      rw [insertByCoverage] at h
      split at h
      · simpa using h
      · rcases List.mem_cons.1 h with rfl | h
        · right; exact List.mem_cons_self _ _
        · rcases ih h with rfl | h
          · left; rfl
          · right; exact List.mem_cons_of_mem _ h

lemma mem_of_mem_sortByCoverage {a : PlaneInfo} {l : List PlaneInfo}
    (h : a ∈ sortByCoverage l) : a ∈ l := by
  rw [sortByCoverage] at h
  suffices hgen : ∀ (l' : List PlaneInfo) (acc : List PlaneInfo),
      a ∈ l'.foldl (fun acc info => insertByCoverage info acc) acc →
      a ∈ acc ∨ a ∈ l' by
    rcases hgen l [] h with h' | h'
    · simp at h'
    · exact h'
  intro l'
  induction l' with
  | nil =>
      intro acc h'
      exact Or.inl h'
  | cons x xs ih =>
      intro acc h'
      rw [List.foldl_cons] at h'
      rcases ih (insertByCoverage x acc) h' with h'' | h''
      · rcases mem_of_mem_insertByCoverage h'' with rfl | h''
        · exact Or.inr (List.mem_cons_self _ _)
        · exact Or.inl h''
      · exact Or.inr (List.mem_cons_of_mem _ h'')

lemma buildPlanes_mem {total_faces : ℕ} :
    ∀ {groups : List (List FacePair)} {planes : List PlaneInfo} {info : PlaneInfo},
      buildPlanes total_faces groups = some planes → info ∈ planes →
      ∃ group, group ∈ groups ∧ 2 ≤ group.length ∧
        ∃ nrm, normalizeOpt (sumVec (group.map pairNormal)) = some nrm ∧
          info = buildPlaneInfo total_faces group nrm := by
  intro groups
  induction groups with
  | nil =>
      intro planes info h hm
      rw [buildPlanes] at h
      cases h
      simp at hm
  | cons g rest ih =>
      intro planes info h hm
      rw [buildPlanes] at h
      split at h
      · obtain ⟨group, hg, h2, hn⟩ := ih h hm
        exact ⟨group, List.mem_cons_of_mem _ hg, h2, hn⟩
      · cases hN : normalizeOpt (sumVec (g.map pairNormal)) with
        | none => rw [hN] at h; simp at h
        | some nrm =>
            cases hrest : buildPlanes total_faces rest with
            | none => rw [hN, hrest] at h; simp at h
            | some infos =>
                rw [hN, hrest] at h
                simp only [Option.some_inj] at h
                subst h
                rcases List.mem_cons.1 hm with rfl | hm
                · exact ⟨g, List.mem_cons_self _ _, by omega, nrm, hN, rfl⟩
                · obtain ⟨group, hg, h2, hn⟩ := ih hrest hm
                  exact ⟨group, List.mem_cons_of_mem _ hg, h2, hn⟩

lemma find_all_inv {face_pairs : List FacePair} {total_faces : ℕ}
    {planes : List PlaneInfo} {st : String} {info : PlaneInfo}
    (hres : find_all_mirror_planes face_pairs total_faces = some (planes, st))
    (hmem : info ∈ planes) :
    ∃ group, group ∈ groupPairsAll face_pairs ∧ 2 ≤ group.length ∧
      ∃ nrm, normalizeOpt (sumVec (group.map pairNormal)) = some nrm ∧
        info = buildPlaneInfo total_faces group nrm := by
  by_cases he : face_pairs.isEmpty
  · rw [find_all_mirror_planes, if_pos he] at hres
    simp only [Option.some_inj, Prod.mk.injEq] at hres
    rw [← hres.1] at hmem
    simp at hmem
  · cases hB : buildPlanes total_faces (groupPairsAll face_pairs) with
    | none => simp [find_all_mirror_planes, he, hB] at hres
    | some built =>
        simp only [find_all_mirror_planes, he, hB, Bool.false_eq_true, if_false] at hres
        split at hres
        · simp only [Option.some_inj, Prod.mk.injEq] at hres
          rw [← hres.1] at hmem
          simp at hmem
        · simp only [Option.some_inj, Prod.mk.injEq] at hres
          rw [← hres.1] at hmem
          exact buildPlanes_mem hB (mem_of_mem_sortByCoverage hmem)

/-- C4: every `MirrorPlane` produced as a group's representative plane — by
`find_significant_mirror_plane` and by `find_all_mirror_planes` — has a
normal of length 1 (exactly, in the real-number idealization of floating
tolerance), whenever a plane is produced at all. -/
theorem produced_plane_normal_unit :
    (∀ (face_pairs : List FacePair) (total_faces : ℕ) (point nrm : Vec3) (st : String),
        find_significant_mirror_plane face_pairs total_faces = some (some (point, nrm), st) →
        vlen nrm = 1) ∧
    (∀ (face_pairs : List FacePair) (total_faces : ℕ) (planes : List PlaneInfo)
        (st : String) (info : PlaneInfo),
        find_all_mirror_planes face_pairs total_faces = some (planes, st) →
        info ∈ planes → vlen info.plane.2 = 1) := by
  constructor
  · intro face_pairs total_faces point nrm st hres
    have hne : face_pairs ≠ [] := by
      intro h
      subst h
      simp [find_significant_mirror_plane] at hres
    obtain ⟨nrm', hN, hcases⟩ := find_significant_inv hres hne
    rcases hcases with ⟨_, hr⟩ | ⟨_, _, hr⟩ | ⟨_, hr⟩
    · simp at hr
    · simp only [Prod.mk.injEq, Option.some_inj] at hr
      rw [hr.1.2]
      exact normalizeOpt_unit hN
    · simp only [Prod.mk.injEq, Option.some_inj] at hr
      rw [hr.1.2]
      exact normalizeOpt_unit hN
  · intro face_pairs total_faces planes st info hres hmem
    obtain ⟨group, _, _, nrm, hN, hinfo⟩ := find_all_inv hres hmem
    rw [hinfo]
    exact normalizeOpt_unit hN

/-- C7 (amended): for every non-empty list of face pairs on which the call
returns at all — the largest group's summed normal must be non-null,
otherwise `avg_normal.normalize()` raises before any tier test and no
classification is produced — `find_significant_mirror_plane` classifies its
largest group by coverage in three tiers: below 0.2 no plane and a
no-significant-symmetry status, in [0.2, 0.6) the averaged plane with a
partial-symmetry status, at or above 0.6 the averaged plane with a
full-symmetry status. -/
theorem significant_plane_tiers (face_pairs : List FacePair) (total_faces : ℕ)
    (res : Option (Vec3 × Vec3) × String)
    (hne : face_pairs ≠ [])
    (hres : find_significant_mirror_plane face_pairs total_faces = some res) :
    (sigCoverage face_pairs total_faces < 0.2 →
        res = (none, "No significant symmetry detected")) ∧
    (0.2 ≤ sigCoverage face_pairs total_faces →
      sigCoverage face_pairs total_faces < 0.6 →
        ∃ nrm, normalizeOpt (sigSumNormal face_pairs) = some nrm ∧
          res = (some (sigAvgPoint face_pairs, nrm), "Partial symmetry detected")) ∧
    (0.6 ≤ sigCoverage face_pairs total_faces →
        ∃ nrm, normalizeOpt (sigSumNormal face_pairs) = some nrm ∧
          res = (some (sigAvgPoint face_pairs, nrm), "Full symmetry detected")) := by
  obtain ⟨nrm, hN, hcases⟩ := find_significant_inv hres hne
  refine ⟨?_, ?_, ?_⟩
  · intro hc
    rcases hcases with ⟨_, hr⟩ | ⟨h1, _, _⟩ | ⟨h1, _⟩
    · exact hr
    · linarith
    · linarith
  · intro h1 h2
    rcases hcases with ⟨hc, _⟩ | ⟨_, _, hr⟩ | ⟨hc, _⟩
    · linarith
    · exact ⟨nrm, hN, hr⟩
    · linarith
  · intro h1
    rcases hcases with ⟨hc, _⟩ | ⟨_, hc, _⟩ | ⟨_, hr⟩
    · linarith
    · linarith
    · exact ⟨nrm, hN, hr⟩

/-! Unique-face-set lemmas for C8. -/

lemma uniqueFaces_cons (p : FacePair) (rest : List FacePair) :
    uniqueFaces (p :: rest) =
      insert (pairFst p) (insert (pairSnd p) (uniqueFaces rest)) := rfl

lemma mem_uniqueFaces {a : ℕ} {group : List FacePair} :
    a ∈ uniqueFaces group ↔ ∃ p ∈ group, a = pairFst p ∨ a = pairSnd p := by
  induction group with
  | nil => simp [uniqueFaces]
  | cons p rest ih =>
      rw [uniqueFaces_cons]
      simp only [Finset.mem_insert, ih, List.mem_cons]
      constructor
      · rintro (rfl | rfl | ⟨q, hq, hor⟩)
        · exact ⟨p, Or.inl rfl, Or.inl rfl⟩
        · exact ⟨p, Or.inl rfl, Or.inr rfl⟩
        · exact ⟨q, Or.inr hq, hor⟩
      · rintro ⟨q, rfl | hq, hor⟩
        · rcases hor with rfl | rfl
          · exact Or.inl rfl
          · exact Or.inr (Or.inl rfl)
        · exact Or.inr (Or.inr ⟨q, hq, hor⟩)

lemma uniqueFaces_eq_union (group : List FacePair) :
    uniqueFaces group =
      (group.map pairFst).toFinset ∪ (group.map pairSnd).toFinset := by
  ext a
  simp only [mem_uniqueFaces, Finset.mem_union, List.mem_toFinset, List.mem_map]
  constructor
  · rintro ⟨p, hp, rfl | rfl⟩
    · exact Or.inl ⟨p, hp, rfl⟩
    · exact Or.inr ⟨p, hp, rfl⟩
  · rintro (⟨p, hp, rfl⟩ | ⟨p, hp, rfl⟩)
    · exact ⟨p, hp, Or.inl rfl⟩
    · exact ⟨p, hp, Or.inr rfl⟩

lemma uniqueFaces_card_pos {group : List FacePair} (h : group ≠ []) :
    0 < (uniqueFaces group).card := by
  cases group with
  | nil => exact absurd rfl h
  | cons p rest =>
      refine Finset.card_pos.2 ⟨pairFst p, ?_⟩
      exact mem_uniqueFaces.2 ⟨p, List.mem_cons_self _ _, Or.inl rfl⟩

lemma uniqueFaces_card_le {group : List FacePair} {N : ℕ}
    (h : ∀ p ∈ group, pairFst p < N ∧ pairSnd p < N) :
    (uniqueFaces group).card ≤ N := by
  have hsub : uniqueFaces group ⊆ Finset.range N := by
    intro a ha
    rw [Finset.mem_range]
    obtain ⟨p, hp, hor⟩ := mem_uniqueFaces.1 ha
    rcases hor with rfl | rfl
    · exact (h p hp).1
    · exact (h p hp).2
  calc (uniqueFaces group).card ≤ (Finset.range N).card := Finset.card_le_card hsub
    _ = N := Finset.card_range N

/-! Every member of a greedy group came from the input pair list. -/

lemma mem_group_of_insertIntoGroupsAll {q pair : FacePair} :
    ∀ {groups : List (List FacePair)} {g : List FacePair},
      g ∈ insertIntoGroupsAll pair groups → q ∈ g →
      q = pair ∨ ∃ g₀ ∈ groups, q ∈ g₀ := by
  intro groups
  induction groups with
  | nil =>
      intro g hg hq
      simp only [insertIntoGroupsAll, List.mem_singleton] at hg
      subst hg
      left
      simpa using hq
  | cons group rest ih =>
      intro g hg hq
      rw [insertIntoGroupsAll] at hg
      split at hg
      · rcases List.mem_cons.1 hg with rfl | hg
        · rcases List.mem_append.1 hq with hq | hq
          · exact Or.inr ⟨group, List.mem_cons_self _ _, hq⟩
          · left; simpa using hq
        · exact Or.inr ⟨g, List.mem_cons_of_mem _ hg, hq⟩
      · rcases List.mem_cons.1 hg with rfl | hg
        · exact Or.inr ⟨g, List.mem_cons_self _ _, hq⟩
        · rcases ih hg hq with h | ⟨g₀, hg₀, hq₀⟩
          · exact Or.inl h
          · exact Or.inr ⟨g₀, List.mem_cons_of_mem _ hg₀, hq₀⟩

lemma mem_of_mem_groupPairsAll {face_pairs : List FacePair}
    {g : List FacePair} {q : FacePair}
    (hg : g ∈ groupPairsAll face_pairs) (hq : q ∈ g) : q ∈ face_pairs := by
  suffices h : ∀ (l : List FacePair) (acc : List (List FacePair)),
      (∀ g' ∈ acc, ∀ q' ∈ g', q' ∈ face_pairs) → (∀ p ∈ l, p ∈ face_pairs) →
      ∀ g' ∈ l.foldl (fun gs p => insertIntoGroupsAll p gs) acc, ∀ q' ∈ g', q' ∈ face_pairs by
    exact h face_pairs [] (by simp) (fun p hp => hp) g hg q hq
  intro l
  induction l with
  | nil =>
      intro acc hacc _ g' hg' q' hq'
      exact hacc g' hg' q' hq'
  | cons p rest ih =>
      intro acc hacc hl g' hg' q' hq'
      rw [List.foldl_cons] at hg'
      refine ih (insertIntoGroupsAll p acc) ?_
        (fun x hx => hl x (List.mem_cons_of_mem _ hx)) g' hg' q' hq'
      intro g'' hg'' q'' hq''
      rcases mem_group_of_insertIntoGroupsAll hg'' hq'' with rfl | ⟨g₀, h₀, hq₀⟩
      · exact hl q'' (List.mem_cons_self _ _)
      · exact hacc g₀ h₀ q'' hq₀

/-- C8: for every plane group reported by `find_all_mirror_planes`, given
face pairs whose indices lie below the total face count `N > 0`, the recorded
coverage satisfies `0 < coverage ≤ 1` and the recorded `face_count` equals
the number of distinct face indices occurring across the group's pairs. -/
theorem plane_group_coverage_bounds
    (face_pairs : List FacePair) (total_faces : ℕ) (planes : List PlaneInfo)
    (st : String) (info : PlaneInfo)
    (hN : 0 < total_faces)
    (hidx : ∀ p ∈ face_pairs, pairFst p < total_faces ∧ pairSnd p < total_faces)
    (hres : find_all_mirror_planes face_pairs total_faces = some (planes, st))
    (hmem : info ∈ planes) :
    0 < info.coverage ∧ info.coverage ≤ 1 ∧
      info.face_count =
        ((info.pairs.map pairFst).toFinset ∪ (info.pairs.map pairSnd).toFinset).card := by
  obtain ⟨group, hgroup, h2, nrm, hNn, hinfo⟩ := find_all_inv hres hmem
  have hb : ∀ p ∈ group, pairFst p < total_faces ∧ pairSnd p < total_faces :=
    fun p hp => hidx p (mem_of_mem_groupPairsAll hgroup hp)
  have hne : group ≠ [] := by
    intro h
    rw [h] at h2
    simp at h2
  have hpos := uniqueFaces_card_pos hne
  have hle := uniqueFaces_card_le hb
  subst hinfo
  simp only [buildPlaneInfo]
  refine ⟨?_, ?_, ?_⟩
  · exact div_pos (by exact_mod_cast hpos) (by exact_mod_cast hN)
  · rw [div_le_one (by exact_mod_cast hN)]
    exact_mod_cast hle
  · rw [uniqueFaces_eq_union]

/-! The coincidence test as a conjunction (shared helper). -/

lemma check_faces_coincident_iff (face1 face2 : Face) (tolerance : ℝ) :
    check_faces_coincident face1 face2 tolerance ↔
      |face1.BBDiag - face2.BBDiag| ≤ tolerance ∧
      samplePoints face1 ≠ [] ∧
      (matchCount face2 (samplePoints face1) tolerance : ℝ) >
        0.7 * (samplePoints face1).length := by
  simp only [check_faces_coincident]
  split_ifs with h1 h2
  · simp only [false_iff, not_and]
    intro ha
    exact absurd h1 (not_lt.2 ha)
  · simp only [false_iff, not_and]
    intro _ hne
    exact absurd (List.isEmpty_iff.1 h2) hne
  · constructor
    · intro h
      refine ⟨not_lt.1 h1, ?_, h⟩
      intro he
      exact h2 (by rw [he]; rfl)
    · rintro ⟨_, _, h⟩
      exact h

/-- C5 counterexample: two faces whose bounding-box diagonals differ by more
than the tolerance, with a non-empty sample set, every sample within
tolerance of the second face (match ratio 1 > 0.7) — yet
`check_faces_coincident` returns false, because of the bounding-box
pre-filter the claim omits. -/
theorem coincidence_ratio_cex :
    ¬ check_faces_coincident faceE1 faceE2 1 ∧
    samplePoints faceE1 ≠ [] ∧
    (matchCount faceE2 (samplePoints faceE1) 1 : ℝ) >
      0.7 * (samplePoints faceE1).length := by
  refine ⟨?_, ?_, ?_⟩
  · simp only [check_faces_coincident, faceE1, faceE2]
    norm_num
  · simp [samplePoints, faceE1]
  · simp only [matchCount, samplePoints, faceE1, faceE2, List.flatMap_nil,
      List.append_nil, List.countP_cons, List.countP_nil]
    norm_num

/-- C5 (amended): `check_faces_coincident` returns true iff the bounding-box
diagonals differ by at most the tolerance, the collected sample set is
non-empty, and the number of samples within tolerance of the second face
(failed distance queries counting toward the total but not the matches)
exceeds 0.7 times the total sample count; in particular it returns false on
an empty sample set. -/
theorem coincidence_decision_rule (face1 face2 : Face) (tolerance : ℝ) :
    check_faces_coincident face1 face2 tolerance ↔
      |face1.BBDiag - face2.BBDiag| ≤ tolerance ∧
      samplePoints face1 ≠ [] ∧
      (matchCount face2 (samplePoints face1) tolerance : ℝ) >
        0.7 * (samplePoints face1).length :=
  check_faces_coincident_iff face1 face2 tolerance

/-! Membership in the index-pair enumeration. -/

lemma mem_pairIndices {n i j : ℕ} : (i, j) ∈ pairIndices n ↔ i < j ∧ j < n := by
  simp only [pairIndices, List.mem_flatMap, List.mem_map, List.mem_filter,
    List.mem_range, decide_eq_true_eq, Prod.mk.injEq]
  constructor
  · rintro ⟨a, ha, b, ⟨hbn, hab⟩, rfl, rfl⟩
    exact ⟨hab, hbn⟩
  · rintro ⟨hij, hjn⟩
    exact ⟨i, lt_trans hij hjn, j, ⟨hjn, hij⟩, rfl, rfl⟩

/-- C6: every face pair emitted by `find_symmetric_face_pairs` (at a positive
tolerance) has `index_i < index_j`, its midpoint is the componentwise average
of the two faces' centers of mass, its normal is the unit vector from
`center_i` to `center_j` (unit length included), and the distance between
the two centers is not below the tolerance (degenerate pairs are skipped). -/
theorem emitted_pair_invariants (shape : Shape) (tolerance : ℝ) (pair : FacePair)
    (htol : 0 < tolerance)
    (hmem : pair ∈ find_symmetric_face_pairs shape tolerance) :
    pairFst pair < pairSnd pair ∧
    ∃ face_a face_b,
      shape.Faces[pairFst pair]? = some face_a ∧
      shape.Faces[pairSnd pair]? = some face_b ∧
      pairMid pair = midOf face_a face_b ∧
      pairNormal pair = vnormalize (vsub face_b.CenterOfMass face_a.CenterOfMass) ∧
      vlen (pairNormal pair) = 1 ∧
      ¬ vlen (vsub face_b.CenterOfMass face_a.CenterOfMass) < tolerance := by
  rw [find_symmetric_face_pairs] at hmem
  obtain ⟨⟨i, j⟩, hij, hsome⟩ := List.mem_filterMap.1 hmem
  cases ha : shape.Faces[i]? with
  | none => rw [ha] at hsome; simp at hsome
  | some face_a =>
    cases hb : shape.Faces[j]? with
    | none => rw [ha, hb] at hsome; simp at hsome
    | some face_b =>
      rw [ha, hb] at hsome
      simp only [tryPair] at hsome
      split_ifs at hsome with h1 h2 h3 h4
      obtain rfl := (Option.some_inj.1 hsome).symm
      have hlen : vlen (vsub face_b.CenterOfMass face_a.CenterOfMass) ≠ 0 := by
        intro h0
        rw [h0] at h3
        exact h3 htol
      refine ⟨(mem_pairIndices.1 hij).1, face_a, face_b, ha, hb, rfl, rfl, ?_, h3⟩
      exact vlen_vnormalize hlen

/-! Monotonicity of the coincidence test in the tolerance. -/

lemma matchCount_mono {face2 : Face} {pts : List Vec3} {t t' : ℝ} (h : t ≤ t') :
    matchCount face2 pts t ≤ matchCount face2 pts t' := by
  refine List.countP_mono_left fun p _ hp => ?_
  cases hd : face2.distTo p with
  | none => simp [hd] at hp
  | some d =>
      simp only [hd, decide_eq_true_eq] at hp ⊢
      linarith

lemma check_faces_coincident_mono {face1 face2 : Face} {t t' : ℝ}
    (htt : t ≤ t') (h : check_faces_coincident face1 face2 t) :
    check_faces_coincident face1 face2 t' := by
  rw [check_faces_coincident_iff] at h ⊢
  obtain ⟨h1, h2, h3⟩ := h
  refine ⟨le_trans h1 htt, h2, lt_of_lt_of_le h3 ?_⟩
  exact_mod_cast matchCount_mono htt

lemma tryPair_mono {t t' : ℝ} {i j : ℕ} {face_a face_b : Face} {pair : FacePair}
    (htt : t ≤ t')
    (hgap : ¬(t ≤ vlen (vsub face_b.CenterOfMass face_a.CenterOfMass) ∧
              vlen (vsub face_b.CenterOfMass face_a.CenterOfMass) < t'))
    (h : tryPair t i j face_a face_b = some pair) :
    tryPair t' i j face_a face_b = some pair := by
  simp only [tryPair] at h ⊢
  split_ifs at h with h1 h2 h3 h4
  have hA : ¬ |face_a.Area - face_b.Area| > t' := by
    push_neg at h1 ⊢
    linarith
  have hP : ¬ |perimeter face_a - perimeter face_b| > t' := by
    push_neg at h2 ⊢
    linarith
  have hL : ¬ vlen (vsub face_b.CenterOfMass face_a.CenterOfMass) < t' := by
    intro hlt
    exact hgap ⟨not_lt.1 h3, hlt⟩
  rw [if_neg hA, if_neg hP, if_neg hL, if_pos (check_faces_coincident_mono htt h4)]
  exact h

lemma filterMap_sublist_of_imp {α β : Type} (l : List α) (f g : α → Option β)
    (h : ∀ a ∈ l, ∀ b, f a = some b → g a = some b) :
    (l.filterMap f).Sublist (l.filterMap g) := by
  induction l with
  | nil => simp
  | cons x xs ih =>
      rw [List.filterMap_cons, List.filterMap_cons]
      have ih' := ih fun a ha b hb => h a (List.mem_cons_of_mem _ ha) b hb
      cases hf : f x with
      | none =>
          cases hg : g x with
          | none => exact ih'
          | some b => exact ih'.cons b
      | some b =>
          rw [h x (List.mem_cons_self _ _) b hf]
          exact ih'.cons₂ b

/-- C3 (amended): enlarging the tolerance never decreases the number of
pairs found, provided no two face centers lie at a distance inside the
half-open window `[τ, τ')` between the two tolerances (the degeneracy guard
`normal.Length < tolerance` skips exactly the pairs whose center distance
falls below the tolerance, so a distance inside the window flips from kept
to skipped and breaks monotonicity in general). -/
theorem pair_count_monotone_outside_guard_window (shape : Shape) (t t' : ℝ)
    (htt : t ≤ t')
    (hgap : ∀ face_a ∈ shape.Faces, ∀ face_b ∈ shape.Faces,
        ¬(t ≤ vlen (vsub face_b.CenterOfMass face_a.CenterOfMass) ∧
          vlen (vsub face_b.CenterOfMass face_a.CenterOfMass) < t')) :
    (find_symmetric_face_pairs shape t).length ≤
      (find_symmetric_face_pairs shape t').length := by
  refine List.Sublist.length_le ?_
  refine filterMap_sublist_of_imp _ _ _ ?_
  rintro ⟨i, j⟩ _ pair hsome
  dsimp only at hsome ⊢
  cases ha : shape.Faces[i]? with
  | none => rw [ha] at hsome; simp at hsome
  | some face_a =>
    cases hb : shape.Faces[j]? with
    | none => rw [ha, hb] at hsome; simp at hsome
    | some face_b =>
      simp only [ha, hb] at hsome ⊢
      exact tryPair_mono htt
        (hgap face_a (List.getElem?_mem ha) face_b (List.getElem?_mem hb)) hsome

/-! Concrete evaluations of the matcher. -/

lemma find_symmetric_two (a b : Face) (tol : ℝ) :
    find_symmetric_face_pairs ⟨[a, b]⟩ tol = (tryPair tol 0 1 a b).toList := by
  have h2 : pairIndices 2 = [(0, 1)] := by decide
  rw [find_symmetric_face_pairs]
  show (pairIndices 2).filterMap _ = _
  rw [h2, List.filterMap_cons, List.filterMap_nil]
  cases h : tryPair tol 0 1 a b with
  | none => simp [h]
  | some p => simp [h]

lemma vlen_100 : vlen ⟨1, 0, 0⟩ = 1 := by
  simp only [vlen]
  norm_num [Real.sqrt_one]

lemma vlen_faceAB : vlen (vsub faceB.CenterOfMass faceA.CenterOfMass) = 1 := by
  simp only [faceA, faceB, vsub, vlen]
  norm_num [Real.sqrt_one]

lemma vlen_faceBA : vlen (vsub faceA.CenterOfMass faceB.CenterOfMass) = 1 := by
  simp only [faceA, faceB, vsub, vlen]
  norm_num [Real.sqrt_one]

lemma check_eval_AB :
    check_faces_coincident
      (transformGeometry
        (mkMirrorMatrix (vnormalize (vsub faceB.CenterOfMass faceA.CenterOfMass))
          (midOf faceA faceB)) faceA) faceB 1 := by
  rw [check_faces_coincident_iff]
  refine ⟨?_, ?_, ?_⟩
  · simp only [transformGeometry, faceA, faceB]
    norm_num
  · simp [samplePoints, transformGeometry, faceA]
  · simp only [matchCount, samplePoints, transformGeometry, faceA, faceB,
      List.map_nil, List.flatMap_nil, List.map_cons, List.append_nil,
      List.countP_cons, List.countP_nil, List.length_cons, List.length_nil]
    norm_num

lemma check_eval_BA_false :
    ¬ check_faces_coincident
      (transformGeometry
        (mkMirrorMatrix (vnormalize (vsub faceA.CenterOfMass faceB.CenterOfMass))
          (midOf faceB faceA)) faceB) faceA 1 := by
  rw [check_faces_coincident_iff]
  rintro ⟨-, -, h⟩
  revert h
  simp only [matchCount, samplePoints, transformGeometry, faceA, faceB,
    List.map_nil, List.flatMap_nil, List.map_cons, List.append_nil,
    List.countP_cons, List.countP_nil, List.length_cons, List.length_nil]
  norm_num

lemma tryPair_AB_1 : tryPair 1 0 1 faceA faceB = some pairP1 := by
  simp only [tryPair]
  rw [if_neg (by simp only [faceA, faceB]; norm_num),
    if_neg (by simp only [perimeter, faceA, faceB]; norm_num),
    if_neg (by rw [vlen_faceAB]; norm_num),
    if_pos check_eval_AB]
  simp only [pairP1, midOf, vnormalize, vlen_faceAB, vsub, vscale, faceA, faceB,
    Option.some_inj, Prod.mk.injEq, Vec3.mk.injEq]
  norm_num [vlen_100]

lemma tryPair_AB_2 : tryPair 2 0 1 faceA faceB = none := by
  simp only [tryPair]
  rw [if_neg (by simp only [faceA, faceB]; norm_num),
    if_neg (by simp only [perimeter, faceA, faceB]; norm_num),
    if_pos (by rw [vlen_faceAB]; norm_num)]

lemma tryPair_BA_1 : tryPair 1 0 1 faceB faceA = none := by
  simp only [tryPair]
  rw [if_neg (by simp only [faceA, faceB]; norm_num),
    if_neg (by simp only [perimeter, faceA, faceB]; norm_num),
    if_neg (by rw [vlen_faceBA]; norm_num),
    if_neg check_eval_BA_false]

lemma eval_shapeA_1 : find_symmetric_face_pairs shapeA 1 = [pairP1] := by
  show find_symmetric_face_pairs ⟨[faceA, faceB]⟩ 1 = [pairP1]
  rw [find_symmetric_two, tryPair_AB_1]
  rfl

lemma eval_shapeA_2 : find_symmetric_face_pairs shapeA 2 = [] := by
  show find_symmetric_face_pairs ⟨[faceA, faceB]⟩ 2 = []
  rw [find_symmetric_two, tryPair_AB_2]
  rfl

lemma eval_shapeRev_1 : find_symmetric_face_pairs shapeRev 1 = [] := by
  show find_symmetric_face_pairs ⟨[faceB, faceA]⟩ 1 = []
  rw [find_symmetric_two, tryPair_BA_1]
  rfl

/-! Concrete evaluations of the clustering functions. -/

lemma normalizeOpt_100 : normalizeOpt ⟨1, 0, 0⟩ = some ⟨1, 0, 0⟩ := by
  rw [normalizeOpt, if_neg (by rw [vlen_100]; norm_num), vlen_100]
  simp only [vscale, Option.some_inj, Vec3.mk.injEq]
  norm_num

lemma vlen_200 : vlen ⟨2, 0, 0⟩ = 2 := by
  simp only [vlen]
  rw [show (2:ℝ) ^ 2 + 0 ^ 2 + 0 ^ 2 = 2 ^ 2 by norm_num]
  exact Real.sqrt_sq (by norm_num)

lemma normalizeOpt_200 : normalizeOpt ⟨2, 0, 0⟩ = some ⟨1, 0, 0⟩ := by
  rw [normalizeOpt, if_neg (by rw [vlen_200]; norm_num), vlen_200]
  simp only [vscale, Option.some_inj, Vec3.mk.injEq]
  norm_num

lemma sigLargestGroup_P1 : sigLargestGroup [pairP1] = [pairP1] := rfl

lemma sigSumNormal_P1 : sigSumNormal [pairP1] = ⟨1, 0, 0⟩ := by
  rw [sigSumNormal, sigLargestGroup_P1]
  simp only [List.map_cons, List.map_nil, sumVec, List.foldl_cons, List.foldl_nil,
    vadd, vzero, pairNormal, pairP1, Vec3.mk.injEq]
  norm_num

lemma sigAvgPoint_P1 : sigAvgPoint [pairP1] = ⟨1 / 2, 0, 0⟩ := by
  rw [sigAvgPoint, sigLargestGroup_P1]
  simp only [List.map_cons, List.map_nil, sumVec, List.foldl_cons, List.foldl_nil,
    vadd, vzero, pairMid, pairP1, vscale, List.length_cons, List.length_nil,
    Vec3.mk.injEq]
  norm_num

lemma sigCoverage_P1 : sigCoverage [pairP1] 2 = 1 := by
  rw [sigCoverage, sigLargestGroup_P1]
  rw [show (uniqueFaces [pairP1]).card = 2 from rfl]
  norm_num

lemma eval_sig_P1 :
    find_significant_mirror_plane [pairP1] 2 =
      some (some (⟨1 / 2, 0, 0⟩, ⟨1, 0, 0⟩), "Full symmetry detected") := by
  rw [find_significant_mirror_plane, if_neg (by simp), sigSumNormal_P1, normalizeOpt_100]
  simp only [sigCoverage_P1, sigAvgPoint_P1]
  norm_num

lemma vlen_zero : vlen ⟨0, 0, 0⟩ = 0 := by
  simp only [vlen]
  norm_num [Real.sqrt_zero]

lemma normalizeOpt_zero : normalizeOpt ⟨0, 0, 0⟩ = none := by
  rw [normalizeOpt, if_pos vlen_zero]

lemma groupPairs_P1Pneg : groupPairs [pairP1, pairPneg] = [[pairP1, pairPneg]] := by
  simp only [groupPairs, List.foldl_cons, List.foldl_nil]
  rw [show insertIntoGroups pairP1 [] = [[pairP1]] from rfl]
  rw [insertIntoGroups, if_pos (by
    simp only [pairNormal, pairP1, pairPneg, firstNormal, List.headD, vdot]
    norm_num)]
  rfl

lemma sigSumNormal_P1Pneg : sigSumNormal [pairP1, pairPneg] = ⟨0, 0, 0⟩ := by
  rw [sigSumNormal, sigLargestGroup, groupPairs_P1Pneg]
  rw [show maxByLen [[pairP1, pairPneg]] = [pairP1, pairPneg] from rfl]
  simp only [List.map_cons, List.map_nil, sumVec, List.foldl_cons, List.foldl_nil,
    vadd, vzero, pairNormal, pairP1, pairPneg, Vec3.mk.injEq]
  norm_num

/-- C7 counterexample: a non-empty list of two face pairs with antiparallel
normals; the greedy grouping puts both into one group (absolute dot product
1 > 0.98), the summed normal is the null vector, and
`avg_normal.normalize()` raises before any tier test, so the call produces
no tier classification at all — refuting the claim that every non-empty
input is classified into one of the three tiers. -/
theorem significant_plane_tiers_cex :
    ([pairP1, pairPneg] : List FacePair) ≠ [] ∧
    find_significant_mirror_plane [pairP1, pairPneg] 4 = none := by
  refine ⟨by simp, ?_⟩
  rw [find_significant_mirror_plane, if_neg (by simp), sigSumNormal_P1Pneg,
    normalizeOpt_zero]

lemma groupPairsAll_P1P1 : groupPairsAll [pairP1, pairP1] = [[pairP1, pairP1]] := by
  simp only [groupPairsAll, List.foldl_cons, List.foldl_nil]
  rw [show insertIntoGroupsAll pairP1 [] = [[pairP1]] from rfl]
  rw [insertIntoGroupsAll, if_pos (by
    simp only [pairNormal, pairP1, firstNormal, List.headD, vdot]
    norm_num)]
  rfl

lemma buildPlanes_P1P1 :
    buildPlanes 2 [[pairP1, pairP1]] =
      some [buildPlaneInfo 2 [pairP1, pairP1] ⟨1, 0, 0⟩] := by
  have hsum : sumVec ([pairP1, pairP1].map pairNormal) = ⟨2, 0, 0⟩ := by
    simp only [List.map_cons, List.map_nil, sumVec, List.foldl_cons, List.foldl_nil,
      vadd, vzero, pairNormal, pairP1, Vec3.mk.injEq]
    norm_num
  rw [buildPlanes, if_neg (by simp), hsum, normalizeOpt_200]
  rw [show buildPlanes 2 ([] : List (List FacePair)) = some [] from rfl]

lemma eval_all_P1P1 :
    find_all_mirror_planes [pairP1, pairP1] 2 =
      some ([buildPlaneInfo 2 [pairP1, pairP1] ⟨1, 0, 0⟩],
        "Multiple symmetry planes detected") := by
  rw [find_all_mirror_planes, if_neg (by simp), groupPairsAll_P1P1, buildPlanes_P1P1]
  rfl

/-! Remaining witnesses and counterexamples. -/

/-- Closed witness for `produced_plane_normal_unit`: evaluated on concrete
pair lists, both functions return planes whose normal is the unit x-vector. -/
theorem produced_plane_normal_unit_witness :
    vlen ⟨1, 0, 0⟩ = 1 ∧
      vlen (buildPlaneInfo 2 [pairP1, pairP1] ⟨1, 0, 0⟩).plane.2 = 1 :=
  ⟨produced_plane_normal_unit.1 [pairP1] 2 ⟨1 / 2, 0, 0⟩ ⟨1, 0, 0⟩
      "Full symmetry detected" eval_sig_P1,
   produced_plane_normal_unit.2 [pairP1, pairP1] 2
      [buildPlaneInfo 2 [pairP1, pairP1] ⟨1, 0, 0⟩] "Multiple symmetry planes detected"
      (buildPlaneInfo 2 [pairP1, pairP1] ⟨1, 0, 0⟩) eval_all_P1P1
      (List.mem_singleton.2 rfl)⟩

/-- Closed witness for `significant_plane_tiers`: on a single concrete pair
with both faces of a two-face shape covered, coverage is 1 ≥ 0.6 and the
full-symmetry tier is returned. -/
theorem significant_plane_tiers_witness :
    ∃ nrm, normalizeOpt (sigSumNormal [pairP1]) = some nrm ∧
      ((some (⟨1 / 2, 0, 0⟩, ⟨1, 0, 0⟩), "Full symmetry detected") :
          Option (Vec3 × Vec3) × String) =
        (some (sigAvgPoint [pairP1], nrm), "Full symmetry detected") :=
  (significant_plane_tiers [pairP1] 2 _ (by simp) eval_sig_P1).2.2
    (by rw [sigCoverage_P1]; norm_num)

/-- Closed witness for `plane_group_coverage_bounds` at a concrete run of
`find_all_mirror_planes`. -/
theorem plane_group_coverage_bounds_witness :
    0 < (buildPlaneInfo 2 [pairP1, pairP1] ⟨1, 0, 0⟩).coverage ∧
    (buildPlaneInfo 2 [pairP1, pairP1] ⟨1, 0, 0⟩).coverage ≤ 1 ∧
    (buildPlaneInfo 2 [pairP1, pairP1] ⟨1, 0, 0⟩).face_count =
      (((buildPlaneInfo 2 [pairP1, pairP1] ⟨1, 0, 0⟩).pairs.map pairFst).toFinset ∪
        ((buildPlaneInfo 2 [pairP1, pairP1] ⟨1, 0, 0⟩).pairs.map pairSnd).toFinset).card :=
  plane_group_coverage_bounds [pairP1, pairP1] 2
    [buildPlaneInfo 2 [pairP1, pairP1] ⟨1, 0, 0⟩] "Multiple symmetry planes detected"
    (buildPlaneInfo 2 [pairP1, pairP1] ⟨1, 0, 0⟩) (by norm_num)
    (by
      intro p hp
      simp only [List.mem_cons, List.not_mem_nil, or_false] at hp
      rcases hp with rfl | rfl <;>
        exact ⟨by norm_num [pairFst, pairP1], by norm_num [pairSnd, pairP1]⟩)
    eval_all_P1P1 (List.mem_singleton.2 rfl)

/-- Closed witness for `emitted_pair_invariants` on a concrete two-face
shape at tolerance 1. -/
theorem emitted_pair_invariants_witness :
    (0 : ℝ) < 1 ∧ pairP1 ∈ find_symmetric_face_pairs shapeA 1 ∧
    (pairFst pairP1 < pairSnd pairP1 ∧
      ∃ face_a face_b,
        shapeA.Faces[pairFst pairP1]? = some face_a ∧
        shapeA.Faces[pairSnd pairP1]? = some face_b ∧
        pairMid pairP1 = midOf face_a face_b ∧
        pairNormal pairP1 = vnormalize (vsub face_b.CenterOfMass face_a.CenterOfMass) ∧
        vlen (pairNormal pairP1) = 1 ∧
        ¬ vlen (vsub face_b.CenterOfMass face_a.CenterOfMass) < 1) :=
  ⟨by norm_num, by rw [eval_shapeA_1]; exact List.mem_singleton.2 rfl,
   emitted_pair_invariants shapeA 1 pairP1 (by norm_num)
     (by rw [eval_shapeA_1]; exact List.mem_singleton.2 rfl)⟩

/-- C3 counterexample: on a concrete two-face shape, enlarging the tolerance
from 1 to 2 moves the center distance (exactly 1) below the degeneracy guard,
so the pair found at tolerance 1 disappears at tolerance 2: the pair count is
not monotone in the tolerance. -/
theorem tolerance_monotonicity_cex :
    (1 : ℝ) ≤ 2 ∧
    (find_symmetric_face_pairs shapeA 2).length <
      (find_symmetric_face_pairs shapeA 1).length := by
  refine ⟨by norm_num, ?_⟩
  rw [eval_shapeA_1, eval_shapeA_2]
  simp

/-- Closed witness for `pair_count_monotone_outside_guard_window`: on the
same concrete shape, with tolerances 1/2 ≤ 1 and no center distance inside
`[1/2, 1)`, the count is monotone. -/
theorem pair_count_monotone_outside_guard_window_witness :
    (1 / 2 : ℝ) ≤ 1 ∧
    (find_symmetric_face_pairs shapeA (1 / 2)).length ≤
      (find_symmetric_face_pairs shapeA 1).length :=
  ⟨by norm_num,
   pair_count_monotone_outside_guard_window shapeA (1 / 2) 1 (by norm_num) (by
     intro fa hfa fb hfb
     simp only [shapeA, List.mem_cons, List.not_mem_nil, or_false] at hfa hfb
     rcases hfa with rfl | rfl <;> rcases hfb with rfl | rfl <;>
       rintro ⟨h1, h2⟩ <;>
       simp only [faceA, faceB, vsub, vlen] at h1 h2 <;>
       norm_num [Real.sqrt_zero, Real.sqrt_one] at h1 h2)⟩

/-- C9 counterexample: reversing the face enumeration of a concrete two-face
shape changes the set of emitted pairs from one pair to none, because the
coincidence test samples only the transformed first face and queries
distances only on the second. -/
theorem matcher_order_dependence_cex :
    shapeRev.Faces = shapeA.Faces.reverse ∧
    find_symmetric_face_pairs shapeA 1 = [pairP1] ∧
    find_symmetric_face_pairs shapeRev 1 = [] :=
  ⟨by simp [shapeA, shapeRev], eval_shapeA_1, eval_shapeRev_1⟩

lemma vlen_vsub_comm (a b : Vec3) : vlen (vsub a b) = vlen (vsub b a) := by
  simp only [vlen, vsub]
  ring_nf

lemma midOf_comm (a b : Face) : midOf a b = midOf b a := by
  simp only [midOf, Vec3.mk.injEq]
  exact ⟨by ring, by ring, by ring⟩

lemma mkMirrorMatrix_swap (a b : Face) :
    mkMirrorMatrix (vnormalize (vsub a.CenterOfMass b.CenterOfMass)) (midOf b a) =
      mkMirrorMatrix (vnormalize (vsub b.CenterOfMass a.CenterOfMass)) (midOf a b) := by
  have hl := vlen_vsub_comm a.CenterOfMass b.CenterOfMass
  simp only [vsub] at hl
  simp only [mkMirrorMatrix, vnormalize, vscale, vsub, vdot, midOf, hl, Mat.mk.injEq]
  refine ⟨?_, ?_, ?_, ?_, ?_, ?_, ?_, ?_, ?_, ?_, ?_, ?_⟩ <;> ring

/-- C9 (amended): the candidate index pairs and the mirror transform are
enumeration-order independent — swapping the two faces of a pair yields the
very same reflection matrix — but the emitted pair set need not be, because
the coincidence test samples only the transformed first face and queries
distances only on the second; for a two-face shape, the emitted pair counts
under the two enumeration orders agree whenever the coincidence test is
symmetric for that pair of faces. -/
theorem matcher_swap_of_symmetric_check (face_a face_b : Face) (tolerance : ℝ)
    (hsym :
      check_faces_coincident
          (transformGeometry
            (mkMirrorMatrix (vnormalize (vsub face_b.CenterOfMass face_a.CenterOfMass))
              (midOf face_a face_b)) face_a) face_b tolerance ↔
        check_faces_coincident
          (transformGeometry
            (mkMirrorMatrix (vnormalize (vsub face_a.CenterOfMass face_b.CenterOfMass))
              (midOf face_b face_a)) face_b) face_a tolerance) :
    mkMirrorMatrix (vnormalize (vsub face_a.CenterOfMass face_b.CenterOfMass))
        (midOf face_b face_a) =
      mkMirrorMatrix (vnormalize (vsub face_b.CenterOfMass face_a.CenterOfMass))
        (midOf face_a face_b) ∧
    (find_symmetric_face_pairs ⟨[face_a, face_b]⟩ tolerance).length =
      (find_symmetric_face_pairs ⟨[face_b, face_a]⟩ tolerance).length := by
  refine ⟨mkMirrorMatrix_swap face_a face_b, ?_⟩
  rw [find_symmetric_two, find_symmetric_two]
  simp only [tryPair]
  by_cases h1 : |face_a.Area - face_b.Area| > tolerance
  · have h1' : |face_b.Area - face_a.Area| > tolerance := by rwa [abs_sub_comm] at h1
    rw [if_pos h1, if_pos h1']
  · have h1' : ¬ |face_b.Area - face_a.Area| > tolerance := by rwa [abs_sub_comm] at h1
    rw [if_neg h1, if_neg h1']
    by_cases h2 : |perimeter face_a - perimeter face_b| > tolerance
    · have h2' : |perimeter face_b - perimeter face_a| > tolerance := by
        rwa [abs_sub_comm] at h2
      rw [if_pos h2, if_pos h2']
    · have h2' : ¬ |perimeter face_b - perimeter face_a| > tolerance := by
        rwa [abs_sub_comm] at h2
      rw [if_neg h2, if_neg h2']
      by_cases h3 : vlen (vsub face_b.CenterOfMass face_a.CenterOfMass) < tolerance
      · have h3' : vlen (vsub face_a.CenterOfMass face_b.CenterOfMass) < tolerance := by
          rwa [vlen_vsub_comm] at h3
        rw [if_pos h3, if_pos h3']
      · have h3' : ¬ vlen (vsub face_a.CenterOfMass face_b.CenterOfMass) < tolerance := by
          rwa [vlen_vsub_comm] at h3
        rw [if_neg h3, if_neg h3']
        by_cases h4 :
          check_faces_coincident
            (transformGeometry
              (mkMirrorMatrix (vnormalize (vsub face_b.CenterOfMass face_a.CenterOfMass))
                (midOf face_a face_b)) face_a) face_b tolerance
        · rw [if_pos h4, if_pos (hsym.1 h4)]
          rfl
        · rw [if_neg h4, if_neg (fun hc => h4 (hsym.2 hc))]

/-- Closed witness for `matcher_swap_of_symmetric_check` at two concrete
faces whose coincidence tests are (vacuously) symmetric: both sample sets
are empty, so both tests fail, and both enumeration orders yield zero
pairs. -/
theorem matcher_swap_of_symmetric_check_witness :
    mkMirrorMatrix (vnormalize (vsub faceD1.CenterOfMass faceD2.CenterOfMass))
        (midOf faceD2 faceD1) =
      mkMirrorMatrix (vnormalize (vsub faceD2.CenterOfMass faceD1.CenterOfMass))
        (midOf faceD1 faceD2) ∧
    (find_symmetric_face_pairs ⟨[faceD1, faceD2]⟩ 1).length =
      (find_symmetric_face_pairs ⟨[faceD2, faceD1]⟩ 1).length := by
  have hfail : ∀ M : Mat, ∀ f : Face,
      ¬ check_faces_coincident (transformGeometry M faceD1) f 1 := by
    intro M f h
    rw [check_faces_coincident_iff] at h
    exact h.2.1 (by simp [samplePoints, transformGeometry, faceD1])
  have hfail2 : ∀ M : Mat, ∀ f : Face,
      ¬ check_faces_coincident (transformGeometry M faceD2) f 1 := by
    intro M f h
    rw [check_faces_coincident_iff] at h
    exact h.2.1 (by simp [samplePoints, transformGeometry, faceD2])
  exact matcher_swap_of_symmetric_check faceD1 faceD2 1
    (iff_of_false (hfail _ _) (hfail2 _ _))

end SymCad
